import Mathlib

/-!
# LEDGERLY — verification of the ledger/balance engine and membership workflow

Shallow embedding of the core operations of the LEDGERLY repository:
the balance fold of the customer detail screen (`calculateBalance`), the
bulk listing with recomputation and pruning (`listCustomers`), the
transaction history (`getHistory`), the join-request service
(`createJoinRequest`, `getUserJoinRequest`, `getOrgJoinRequests`), the
server-side approval procedures (`approve_join_request`,
`reject_join_request`), profile resolution on login (`getProfile`) and
organization deletion (`handleDeleteOrg`).

Amounts are JavaScript numbers in the source; they are embedded as exact
rationals (`ℚ`). String-typed tags (`tx_type`, `status`, `role`) are kept
as strings, as in the source. The shared relational store is a record of
table rows (`DB`); each operation is a function from the pre-state to the
post-state plus its result, mirroring the sequence of store calls the
source makes.
-/

namespace Ledgerly

/-- Rational version of JavaScript `Math.abs`. -/
def qAbs (q : ℚ) : ℚ := if q < 0 then -q else q

/-- Row of the `transactions` table (`src/types/models`). -/
structure Transaction where
  id : String
  org_id : String
  customer_id : String
  user_id : String
  user_name : String
  tx_type : String
  amount : ℚ
  created_at : Nat
deriving DecidableEq

/-- Row of the `customers` table. The `balance` column is the denormalized
cache; the source guards reads with `c.balance ?? 0`, so it is nullable. -/
structure Customer where
  id : String
  org_id : String
  full_name : String
  phone : String
  address : Option String
  balance : Option ℚ
deriving DecidableEq

/-- Row of the `join_requests` table. `username`, `org_name`, `role` are
nullable: the SQL procedures COALESCE them on read. -/
structure JoinRequest where
  id : String
  user_id : String
  org_id : String
  email : String
  username : Option String
  org_name : Option String
  role : Option String
  status : String
  created_at : Nat
deriving DecidableEq

/-- Row of the `user_profiles` table. -/
structure UserProfile where
  id : String
  org_id : String
  org_name : Option String
  role : String
  username : String
deriving DecidableEq

/-- The shared transactional store: one list of rows per table. -/
structure DB where
  customers : List Customer
  transactions : List Transaction
  join_requests : List JoinRequest
  user_profiles : List UserProfile
deriving DecidableEq

/-! ## Ledger / balance engine -/

/-- Reducer of `calculateBalance` (CustomerDetailScreen): DEBT adds the
amount, PAYMENT subtracts `Math.abs(amount)`, any other tag leaves the
accumulator unchanged. -/
def calcStep (sum : ℚ) (tx : Transaction) : ℚ :=
  if tx.tx_type = "DEBT" then sum + tx.amount
  else if tx.tx_type = "PAYMENT" then sum - qAbs tx.amount
  else sum

/-- The `calculateBalance` function of the customer detail screen: a fold of `calcStep`
over the fetched transaction history, starting at 0. -/
def calculateBalance (history : List Transaction) : ℚ :=
  history.foldl calcStep 0

/-- Per-transaction step of the `listCustomers` balance recomputation:
`tx_type === "DEBT" ? current + tx.amount : current - Math.abs(tx.amount)`.
Note that, unlike `calcStep`, every non-DEBT tag subtracts. -/
def listTxStep (current : ℚ) (tx : Transaction) : ℚ :=
  if tx.tx_type = "DEBT" then current + tx.amount else current - qAbs tx.amount

/-- The `balanceByCustomer` record built by `listCustomers`: a fold over the
fetched transactions that updates the entry of each transaction's customer,
starting each customer at `?? 0`. Customers with no fetched transaction end
up with no entry (`none`). -/
def balanceByCustomer (txs : List Transaction) : String → Option ℚ :=
  txs.foldl
    (fun acc tx =>
      let current := (acc tx.customer_id).getD 0
      let next := listTxStep current tx
      fun cid => if cid = tx.customer_id then some next else acc cid)
    (fun _ => none)

/-- Sum of the DEBT amounts of a transaction list. -/
def sumDebtAmounts (txs : List Transaction) : ℚ :=
  ((txs.filter (fun tx => tx.tx_type = "DEBT")).map Transaction.amount).sum

/-- Sum of the PAYMENT amounts of a transaction list. -/
def sumPaymentAmounts (txs : List Transaction) : ℚ :=
  ((txs.filter (fun tx => tx.tx_type = "PAYMENT")).map Transaction.amount).sum

/-- Signed contribution of one transaction to `calculateBalance`. -/
def calcContribution (tx : Transaction) : ℚ :=
  if tx.tx_type = "DEBT" then tx.amount
  else if tx.tx_type = "PAYMENT" then -qAbs tx.amount
  else 0

/-- Signed contribution of one transaction to the `listCustomers` fold. -/
def listContribution (tx : Transaction) : ℚ :=
  if tx.tx_type = "DEBT" then tx.amount else -qAbs tx.amount

/-- Balance of one customer as recomputed by the `listCustomers` fold: the
fold restricted to the transactions of that customer, starting at 0. -/
def customerTxBalance (cid : String) (txs : List Transaction) : ℚ :=
  (txs.filter (fun tx => tx.customer_id = cid)).foldl listTxStep 0

/-! ## Sorting helper

The store's `ORDER BY` clauses only permute results; they are modelled by an
insertion sort on the relevant column. -/

def insertSorted {α : Type} (le : α → α → Bool) (a : α) : List α → List α
  | [] => [a]
  | b :: bs => if le a b then a :: b :: bs else b :: insertSorted le a bs

def insertionSort {α : Type} (le : α → α → Bool) : List α → List α
  | [] => []
  | a :: as => insertSorted le a (insertionSort le as)


/-! ## listCustomers and getHistory -/

/-- Lower-casing used to model the store's case-insensitive `ilike`. -/
def lowerStr (s : String) : String := String.mk (s.data.map Char.toLower)

def startsWithChars : List Char → List Char → Bool
  | [], _ => true
  | _ :: _, [] => false
  | a :: as, b :: bs => a == b && startsWithChars as bs

def containsChars (needle : List Char) : List Char → Bool
  | [] => needle.isEmpty
  | c :: cs => startsWithChars needle (c :: cs) || containsChars needle cs

/-- The `listCustomers` search filter: when a search term is given, the query
keeps customers whose `full_name` or `phone` contains it, case-insensitively
(`ilike '%term%'`). -/
def matchesSearch (search : String) (c : Customer) : Bool :=
  search = "" ||
    containsChars (lowerStr search).data (lowerStr c.full_name).data ||
    containsChars (lowerStr search).data (lowerStr c.phone).data

/-- Epsilon of the settled-customer prune (`1e-6` in the source). -/
def settleEpsilon : ℚ := 1 / 1000000

/-- The select of `listCustomers`: the org's customers matching the search,
ordered by `full_name`. -/
def listSelected (orgId search : String) (db : DB) : List Customer :=
  insertionSort (fun a b => a.full_name ≤ b.full_name)
    (db.customers.filter (fun c => c.org_id = orgId && matchesSearch search c))

/-- The transaction fetch of `listCustomers`: every transaction whose
`customer_id` is among the selected customers' ids. -/
def fetchedTxs (orgId search : String) (db : DB) : List Transaction :=
  db.transactions.filter (fun tx =>
    ((listSelected orgId search db).map Customer.id).contains tx.customer_id)

/-- The hydration step of `listCustomers`: the customer's balance is set to
its `balanceByCustomer` entry when one exists, and otherwise falls back to
the cached column (`c.balance ?? 0`). -/
def hydrateCustomer (txs : List Transaction) (c : Customer) : Customer :=
  { c with balance := some ((balanceByCustomer txs c.id).getD (c.balance.getD 0)) }

/-- The `listCustomers(orgId, search)` service: selects the org's customers (ordered by
`full_name`), fetches all transactions of those customers, recomputes each
balance via `balanceByCustomer` with a fallback to the cached column
(`c.balance ?? 0`) when no entry exists, deletes the customers whose
hydrated balance is within `1e-6` of zero, and returns the remaining
hydrated customers. Returns the post-state of the store and the list. -/
def listCustomers (orgId search : String) (db : DB) : DB × List Customer :=
  let customers := listSelected orgId search db
  let ids := customers.map Customer.id
  if ids = [] then (db, customers)
  else
    let txs := fetchedTxs orgId search db
    let hydrated := customers.map (hydrateCustomer txs)
    let zeroBalanceIds :=
      (hydrated.filter (fun c => qAbs (c.balance.getD 0) < settleEpsilon)).map
        Customer.id
    let db' :=
      if zeroBalanceIds = [] then db
      else { db with customers :=
        db.customers.filter (fun c => !(zeroBalanceIds.contains c.id)) }
    (db', hydrated.filter (fun c => settleEpsilon ≤ qAbs (c.balance.getD 0)))

/-- The `getHistory(orgId, customerId)` service: the customer's transactions in the org,
ordered by `created_at` descending. Read-only. -/
def getHistory (orgId customerId : String) (db : DB) : List Transaction :=
  insertionSort (fun a b => b.created_at ≤ a.created_at)
    (db.transactions.filter
      (fun tx => tx.org_id = orgId && tx.customer_id = customerId))

/-! ## Join-request service -/

/-- The `getUserJoinRequest(userId, orgId)` select: the store enforces uniqueness of
`(user_id, org_id)` (the upsert conflict key), so the source's
latest-first, limit-1 select returns the unique matching row, if any. -/
def getUserJoinRequest (userId orgId : String) (db : DB) : Option JoinRequest :=
  db.join_requests.find? (fun r => r.user_id = userId && r.org_id = orgId)

/-- Field update applied by the `createJoinRequest` upsert when a row with
the conflict key `(user_id, org_id)` already exists: every supplied column
is overwritten and the status is set back to `PENDING`. -/
def joinRequestUpdate (email : String) (username : Option String)
    (orgName : Option String) (role : Option String) (r : JoinRequest) :
    JoinRequest :=
  { r with
    email := email,
    username := username,
    org_name := orgName,
    role := some (role.getD "STAFF"),
    status := "PENDING" }

/-- The `createJoinRequest` service: an upsert on the conflict key `(user_id, org_id)`
that always writes `status: "PENDING"` together with the supplied email,
username, org name and role (`role ?? "STAFF"`). `freshId`/`now` stand for
the store-generated id and timestamp of a newly inserted row. -/
def createJoinRequest (userId email : String) (username : Option String)
    (orgId : String) (orgName : Option String) (role : Option String)
    (freshId : String) (now : Nat) (db : DB) : DB × JoinRequest :=
  match db.join_requests.find? (fun r => r.user_id = userId && r.org_id = orgId) with
  | some r0 =>
    ({ db with join_requests := db.join_requests.map (fun r =>
        if r.user_id = userId && r.org_id = orgId then
          joinRequestUpdate email username orgName role r
        else r) },
      joinRequestUpdate email username orgName role r0)
  | none =>
    let r : JoinRequest :=
      ⟨freshId, userId, orgId, email, username, orgName,
        some (role.getD "STAFF"), "PENDING", now⟩
    ({ db with join_requests := db.join_requests ++ [r] }, r)

/-- The `getOrgJoinRequests(orgId)` select: the org's PENDING requests, newest first.
This is the only feed the admin approval UI works from. -/
def getOrgJoinRequests (orgId : String) (db : DB) : List JoinRequest :=
  insertionSort (fun a b => b.created_at ≤ a.created_at)
    (db.join_requests.filter (fun r => r.org_id = orgId && r.status = "PENDING"))

/-! ## Server-side approval procedures (SECURITY DEFINER SQL) -/

/-- Result of an approval RPC: the `json_build_object('success', …,
'message', …)` value the SQL functions return. -/
inductive RpcResult where
  | ok (message : String)
  | fail (message : String)
deriving DecidableEq

/-- SQL `SPLIT_PART(email, '@', 1)`. -/
def emailLocalPart (email : String) : String := (email.splitOn "@").headD ""

/-- SQL `INSERT … ON CONFLICT (id) DO UPDATE`: overwrite the row with the same
primary key if present, append otherwise. -/
def upsertUserProfile (ps : List UserProfile) (p : UserProfile) :
    List UserProfile :=
  if ps.any (fun q => q.id = p.id) then
    ps.map (fun q => if q.id = p.id then p else q)
  else ps ++ [p]

/-- Whether `uid` is an ADMIN-role profile of `orgId` — the
`SELECT EXISTS(…)` check both SQL procedures perform. -/
def isAdminOf (uid orgId : String) (db : DB) : Bool :=
  db.user_profiles.any
    (fun p => p.id = uid && p.org_id = orgId && p.role = "ADMIN")

/-- The `approve_join_request(request_id)` SQL procedure. `authUid` is
`auth.uid()` (none when unauthenticated). It checks authentication, request
existence and that the caller is an ADMIN of the request's org; then sets
the request's status to APPROVED and upserts the requester's profile with
`COALESCE(role,'STAFF')` and `COALESCE(username, SPLIT_PART(email,'@',1))`.
The request's current status is never inspected. -/
def approve_join_request (authUid : Option String) (requestId : String)
    (db : DB) : DB × RpcResult :=
  match authUid with
  | none => (db, .fail "Not authenticated")
  | some uid =>
    match db.join_requests.find? (fun r => r.id = requestId) with
    | none => (db, .fail "Join request not found")
    | some r =>
      if isAdminOf uid r.org_id db then
        let db1 := { db with join_requests :=
          db.join_requests.map (fun x : JoinRequest =>
            if x.id = requestId then { x with status := "APPROVED" } else x) }
        let prof : UserProfile :=
          ⟨r.user_id, r.org_id, r.org_name, (r.role).getD "STAFF",
            (r.username).getD (emailLocalPart r.email)⟩
        ({ db1 with user_profiles := upsertUserProfile db1.user_profiles prof },
          .ok "Join request approved")
      else (db, .fail "Not authorized")

/-- The `reject_join_request(request_id)` SQL procedure: same guards as
`approve_join_request`, then sets the status to REJECTED. No profile row is
touched. -/
def reject_join_request (authUid : Option String) (requestId : String)
    (db : DB) : DB × RpcResult :=
  match authUid with
  | none => (db, .fail "Not authenticated")
  | some uid =>
    match db.join_requests.find? (fun r => r.id = requestId) with
    | none => (db, .fail "Join request not found")
    | some r =>
      if isAdminOf uid r.org_id db then
        ({ db with join_requests := db.join_requests.map (fun x =>
            if x.id = requestId then { x with status := "REJECTED" } else x) },
          .ok "Join request rejected")
      else (db, .fail "Not authorized")

/-! ## Profile resolution on login (`getProfile`) -/

/-- The authenticated identity together with its sign-up metadata
(`user.user_metadata`): org/role/username plus the join-path fields
`join_status`, `join_org_id`, `join_org_name`. -/
structure AuthUser where
  id : String
  email : Option String
  meta_org_id : Option String
  meta_org_name : Option String
  meta_role : Option String
  meta_username : Option String
  meta_join_status : Option String
  meta_join_org_id : Option String
  meta_join_org_name : Option String
deriving DecidableEq

/-- The `UserProfile` value `getProfile` resolves to, including the `status`
field the source attaches (left absent by the fresh-profile fallback path). -/
structure ProfileView where
  id : String
  org_id : String
  org_name : String
  role : String
  username : String
  status : Option String
deriving DecidableEq

/-- Outcome of `getProfile`: `null` when no user is signed in, a thrown
error, or a resolved profile view. -/
inductive GetProfileResult where
  | noUser
  | thrown (message : String)
  | profile (p : ProfileView)
deriving DecidableEq

/-- Fallback chain `metadata?.username ?? user.email?.split("@")[0] ?? "user"`. -/
def metaUsernameOf (u : AuthUser) : String :=
  match u.meta_username with
  | some s => s
  | none =>
    match u.email with
    | some e => (e.splitOn "@").headD ""
    | none => "user"

/-- JavaScript `charAt(0).toUpperCase() + slice(1).toLowerCase()`. -/
def capitalizeFirst (s : String) : String :=
  match s.data with
  | [] => ""
  | c :: cs => String.mk (c.toUpper :: cs.map Char.toLower)

/-- Org name derived from an org id slug: first `-`-separated part,
capitalized (`orgId.split("-")[0]` then case adjustment). -/
def orgNameFromId (orgId : String) : String :=
  capitalizeFirst ((orgId.splitOn "-").headD "")

/-- The `getProfile()` service: resolves the membership state of the authenticated
identity. Looks up the `user_profiles` row; when it is missing, a join-path
identity (metadata carrying `join_org_id`) is classified from its join
request (creating one first when none exists and the metadata still says
PENDING), and a profile row is materialized only in the APPROVED branch;
a non-join identity gets a fresh profile from its metadata. Returns the
post-state, the possibly updated auth user (`join_status` metadata), and
the result. `freshId`/`now` stand for store-generated values used if a join
request has to be created. -/
def getProfile (freshId : String) (now : Nat) (u? : Option AuthUser)
    (db : DB) : DB × Option AuthUser × GetProfileResult :=
  match u? with
  | none => (db, none, .noUser)
  | some user =>
    match db.user_profiles.find? (fun p => p.id = user.id) with
    | some p =>
      (db, some user,
        .profile ⟨p.id, p.org_id, p.org_name.getD "", p.role, p.username,
          some "ACTIVE"⟩)
    | none =>
      match user.meta_join_org_id with
      | some joinOrgId =>
        let orgName := user.meta_join_org_name.getD joinOrgId
        let role := user.meta_role.getD "STAFF"
        let username := metaUsernameOf user
        let existingRequest := getUserJoinRequest user.id joinOrgId db
        if existingRequest = none ∧ user.meta_join_status = some "PENDING" then
          let db1 := (createJoinRequest user.id (user.email.getD "")
            (some username) joinOrgId (some orgName) (some role)
            freshId now db).1
          (db1, some user,
            .profile ⟨user.id, joinOrgId, orgName, role, username,
              some "PENDING"⟩)
        else
          let effectiveStatus :=
            match existingRequest with
            | some r => r.status
            | none => user.meta_join_status.getD "PENDING"
          if effectiveStatus = "APPROVED" then
            let prof : UserProfile :=
              ⟨user.id, joinOrgId, some orgName, role, username⟩
            let db1 :=
              { db with user_profiles := upsertUserProfile db.user_profiles prof }
            let user1 := { user with meta_join_status := some "APPROVED" }
            (db1, some user1,
              .profile ⟨user.id, joinOrgId, orgName, role, username,
                some "ACTIVE"⟩)
          else if effectiveStatus = "REJECTED" then
            (db, some user,
              .profile ⟨user.id, joinOrgId, orgName, role, username,
                some "REJECTED"⟩)
          else
            (db, some user,
              .profile ⟨user.id, joinOrgId, orgName, role, username,
                some "PENDING"⟩)
      | none =>
        match user.meta_org_id with
        | none =>
          (db, some user,
            .thrown "Profile missing and org_id not found in user metadata")
        | some orgId =>
          let orgName :=
            match user.meta_org_name with
            | some n => if n = "" then orgNameFromId orgId else n
            | none => orgNameFromId orgId
          let prof : UserProfile :=
            ⟨user.id, orgId, some orgName, user.meta_role.getD "STAFF",
              metaUsernameOf user⟩
          ({ db with user_profiles := db.user_profiles ++ [prof] },
            some user,
            .profile ⟨user.id, orgId, orgName, prof.role, prof.username, none⟩)

/-! ## Organization deletion (ProfileScreen) -/

/-- The remote calls `handleDeleteOrg` makes, in order. -/
inductive OrgAction where
  | verifyPassword
  | deleteTransactions
  | deleteCustomers
  | deleteProfiles
  | signOut
deriving DecidableEq

/-- Outcome of the deletion flow: post-state, the ordered trace of remote
calls performed, and the error shown, if any. -/
structure DeleteOutcome where
  db : DB
  trace : List OrgAction
  err : Option String
deriving DecidableEq

/-- The `handleDeleteOrg` flow: re-verifies the caller's password by a fresh
`signInWithPassword` (`passwordOk` is that call's outcome; `emailFound`
whether `auth.getUser()` returned an email), and only then deletes the
org's transactions, then its customers, then its user profiles, and signs
the caller out. Any failure throws before the remaining steps run. -/
def handleDeleteOrg (orgId : String) (emailFound passwordOk : Bool)
    (db : DB) : DeleteOutcome :=
  if !emailFound then ⟨db, [], some "No email found for verification"⟩
  else if !passwordOk then
    ⟨db, [.verifyPassword], some "Password is incorrect"⟩
  else
    let db1 :=
      { db with transactions :=
          db.transactions.filter (fun t => !(t.org_id = orgId)) }
    let db2 :=
      { db1 with customers :=
          db1.customers.filter (fun c => !(c.org_id = orgId)) }
    let db3 :=
      { db2 with user_profiles :=
          db2.user_profiles.filter (fun p => !(p.org_id = orgId)) }
    ⟨db3,
      [.verifyPassword, .deleteTransactions, .deleteCustomers,
        .deleteProfiles, .signOut], none⟩

/-- The ProfileScreen renders the "Delete organization" button — the only
entry into `handleDeleteOrg` — only when `profile.role === "ADMIN"`; a
non-admin caller can trigger nothing. -/
def profileScreenDeleteOrg (profile : UserProfile)
    (emailFound passwordOk : Bool) (db : DB) : DeleteOutcome :=
  if profile.role = "ADMIN" then
    handleDeleteOrg profile.org_id emailFound passwordOk db
  else ⟨db, [], none⟩

/-! ## Transaction application service -/

/-- Balance of a customer recomputed from the transaction log, per the
`computeBalance` fold of §4.1 (DEBT adds, PAYMENT subtracts). -/
def recomputedBalance (orgId customerId : String) (db : DB) : ℚ :=
  calculateBalance (db.transactions.filter
    (fun t => t.org_id = orgId && t.customer_id = customerId))

/-- Modelled from the spec: the Postgres procedure `apply_payment` is not in
the repository — only its caller `recordPayment` (which forwards to
`supabase.rpc("apply_payment", …)`) is. Per §4.2, the procedure requires a
positive amount and evaluates `amount ≤ current balance` against a balance
recomputed from the transaction log inside the same atomic unit as the
insert; on success it inserts exactly one PAYMENT row, on failure it
inserts nothing. It takes no client-supplied balance. -/
def apply_payment (orgId customerId : String) (amount : ℚ)
    (userId userName : String) (freshId : String) (now : Nat) (db : DB) :
    DB × Option Transaction :=
  if ¬ (0 < amount) then (db, none)
  else if amount ≤ recomputedBalance orgId customerId db then
    let tx : Transaction :=
      ⟨freshId, orgId, customerId, userId, userName, "PAYMENT", amount, now⟩
    ({ db with transactions := db.transactions ++ [tx] }, some tx)
  else (db, none)

/-- The `recordPayment` client wrapper: a single RPC round trip to
`apply_payment` (it throws on a structured failure and returns the inserted
transaction otherwise). -/
def recordPayment (orgId customerId : String) (amount : ℚ)
    (userId userName : String) (freshId : String) (now : Nat) (db : DB) :
    DB × Option Transaction :=
  apply_payment orgId customerId amount userId userName freshId now db

/-! ## Concrete stores used in witnesses and counterexamples -/

def exC3req : JoinRequest :=
  ⟨"r1", "u1", "org1", "u1@mail.com", some "u1", some "Acme", some "STAFF",
    "PENDING", 0⟩

def exC3db : DB :=
  ⟨[], [], [exC3req], [⟨"staff1", "org1", some "Acme", "STAFF", "sam"⟩]⟩

def exC5req : JoinRequest :=
  ⟨"r9", "u9", "org1", "u9@mail.com", some "nina", some "Acme", some "STAFF",
    "REJECTED", 0⟩

def exC5db : DB :=
  ⟨[], [], [exC5req], [⟨"admin1", "org1", some "Acme", "ADMIN", "boss"⟩]⟩

def exC6cust : Customer := ⟨"c1", "org1", "Jane", "+20100", none, some 42⟩

def exC6db : DB := ⟨[exC6cust], [], [], []⟩

def exC7cust : Customer := ⟨"c2", "org1", "Jane", "+20100", none, some 0⟩

def exC7tx1 : Transaction := ⟨"t1", "org1", "c2", "u1", "U", "DEBT", 100, 0⟩

def exC7tx2 : Transaction := ⟨"t2", "org1", "c2", "u1", "U", "PAYMENT", 100, 1⟩

def exC7db : DB := ⟨[exC7cust], [exC7tx1, exC7tx2], [], []⟩

def exC8tx : Transaction := ⟨"t8", "org1", "c1", "u1", "U", "VOID", 5, 0⟩

def exC9admin : UserProfile := ⟨"admin1", "org1", some "Acme", "ADMIN", "boss"⟩

def exC9staff : UserProfile := ⟨"u2", "org2", some "Other", "STAFF", "vic"⟩

def exC9db : DB :=
  ⟨[⟨"c1", "org1", "Jane", "+20100", none, some 10⟩,
      ⟨"c9", "org2", "Bob", "+2", none, some 3⟩],
    [⟨"t1", "org1", "c1", "u1", "U", "DEBT", 10, 0⟩,
      ⟨"t9", "org2", "c9", "u2", "V", "DEBT", 3, 0⟩],
    [], [exC9admin, exC9staff]⟩

def exC2db : DB :=
  ⟨[], [⟨"t1", "org1", "c1", "u1", "U", "DEBT", 100, 0⟩], [], []⟩

def exC4user : AuthUser :=
  ⟨"u4", some "u4@mail.com", none, none, some "STAFF", some "nina",
    some "PENDING", some "org1", some "Acme"⟩

def exC4req : JoinRequest :=
  ⟨"r4", "u4", "org1", "u4@mail.com", some "nina", some "Acme", some "STAFF",
    "PENDING", 0⟩

def exC4db : DB := ⟨[], [], [exC4req], []⟩

def exC10req : JoinRequest :=
  ⟨"r10", "u10", "org1", "old@mail.com", some "old", some "Acme",
    some "STAFF", "APPROVED", 0⟩

def exC10db : DB := ⟨[], [], [exC10req], []⟩

/-! ## General lemmas -/

theorem qAbs_of_nonneg {q : ℚ} (h : 0 ≤ q) : qAbs q = q := by
  simp only [qAbs]
  split <;> [linarith; rfl]

theorem foldl_calcStep_eq_sum (l : List Transaction) (init : ℚ) :
    l.foldl calcStep init = init + (l.map calcContribution).sum := by
  induction l generalizing init with
  | nil => simp
  | cons t l ih =>
    simp only [List.foldl_cons, List.map_cons, List.sum_cons, ih]
    simp only [calcStep, calcContribution]
    split <;> [ring; skip]
    split <;> ring

theorem foldl_listTxStep_eq_sum (l : List Transaction) (init : ℚ) :
    l.foldl listTxStep init = init + (l.map listContribution).sum := by
  induction l generalizing init with
  | nil => simp
  | cons t l ih =>
    simp only [List.foldl_cons, List.map_cons, List.sum_cons, ih]
    simp only [listTxStep, listContribution]
    split <;> ring

theorem balanceByCustomer_from (txs : List Transaction)
    (acc : String → Option ℚ) (cid : String) :
    txs.foldl
      (fun acc tx =>
        let current := (acc tx.customer_id).getD 0
        let next := listTxStep current tx
        fun c => if c = tx.customer_id then some next else acc c)
      acc cid =
      if (txs.filter (fun tx => tx.customer_id = cid)) = [] then acc cid
      else some ((txs.filter (fun tx => tx.customer_id = cid)).foldl
        listTxStep ((acc cid).getD 0)) := by
  induction txs generalizing acc with
  | nil => simp
  | cons t ts ih =>
    simp only [List.foldl_cons, List.filter_cons]
    rw [ih]
    by_cases hc : t.customer_id = cid
    · subst hc
      by_cases hrest : (ts.filter (fun tx => tx.customer_id = t.customer_id)) = []
      · simp [hrest]
      · simp [hrest]
    · have h2 : ¬ cid = t.customer_id := fun h => hc h.symm
      by_cases hrest : (ts.filter (fun tx => tx.customer_id = cid)) = [] <;>
        simp [hrest, hc, h2]

/-- The entry of `balanceByCustomer` for a customer with at least one fetched
transaction is the per-customer fold; a customer with none has no entry. -/
theorem balanceByCustomer_eq (txs : List Transaction) (cid : String) :
    balanceByCustomer txs cid =
      if (txs.filter (fun tx => tx.customer_id = cid)) = [] then none
      else some (customerTxBalance cid txs) := by
  unfold balanceByCustomer customerTxBalance
  rw [balanceByCustomer_from]
  rfl

theorem insertSorted_perm {α : Type} (le : α → α → Bool) (a : α) (l : List α) :
    (insertSorted le a l).Perm (a :: l) := by
  induction l with
  | nil => exact List.Perm.refl _
  | cons b bs ih =>
    simp only [insertSorted]
    split
    · exact List.Perm.refl _
    · exact (ih.cons b).trans (List.Perm.swap a b bs)

theorem insertionSort_perm {α : Type} (le : α → α → Bool) (l : List α) :
    (insertionSort le l).Perm l := by
  induction l with
  | nil => exact List.Perm.refl _
  | cons a as ih =>
    exact (insertSorted_perm le a (insertionSort le as)).trans (ih.cons a)

/-! ## Claim C1 -/

theorem listContribution_eq_calc {tx : Transaction}
    (h : tx.tx_type = "DEBT" ∨ tx.tx_type = "PAYMENT") :
    listContribution tx = calcContribution tx := by
  rcases h with h | h <;> simp [listContribution, calcContribution, h]

theorem sum_calcContribution_eq (txs : List Transaction)
    (hall : ∀ tx ∈ txs, tx.tx_type = "DEBT" ∨ tx.tx_type = "PAYMENT")
    (hpos : ∀ tx ∈ txs, 0 ≤ tx.amount) :
    (txs.map calcContribution).sum =
      sumDebtAmounts txs - sumPaymentAmounts txs := by
  induction txs with
  | nil => simp [sumDebtAmounts, sumPaymentAmounts]
  | cons t l ih =>
    have ht := hall t (by simp)
    have htp := hpos t (by simp)
    have ih2 := ih (fun tx hx => hall tx (by simp [hx]))
      (fun tx hx => hpos tx (by simp [hx]))
    simp only [List.map_cons, List.sum_cons, ih2]
    rcases ht with h | h
    · have hne : ¬ (t.tx_type = "PAYMENT") := by rw [h]; decide
      simp [sumDebtAmounts, sumPaymentAmounts, List.filter_cons, h, hne,
        calcContribution]
      try ring
    · have hne : ¬ (t.tx_type = "DEBT") := by rw [h]; decide
      simp [sumDebtAmounts, sumPaymentAmounts, List.filter_cons, h, hne,
        calcContribution, qAbs_of_nonneg htp]
      try ring

theorem sum_listContribution_eq (txs : List Transaction)
    (hall : ∀ tx ∈ txs, tx.tx_type = "DEBT" ∨ tx.tx_type = "PAYMENT")
    (hpos : ∀ tx ∈ txs, 0 ≤ tx.amount) :
    (txs.map listContribution).sum =
      sumDebtAmounts txs - sumPaymentAmounts txs := by
  rw [List.map_congr_left (fun tx hx => listContribution_eq_calc (hall tx hx))]
  exact sum_calcContribution_eq txs hall hpos

theorem calculateBalance_eq_sum (txs : List Transaction) :
    calculateBalance txs = (txs.map calcContribution).sum := by
  unfold calculateBalance
  rw [foldl_calcStep_eq_sum]
  ring

/-- C1: for transactions whose `tx_type` is DEBT or PAYMENT (with the
data-model invariant that amounts are nonnegative), both the detail-screen
`calculateBalance` and the per-customer `balanceByCustomer` fold of
`listCustomers` recompute the balance as the sum of DEBT amounts minus the
sum of PAYMENT amounts, and both are invariant under permutation of the
transaction list. -/
theorem recomputed_balance_signed_sum (txs txs2 : List Transaction)
    (hall : ∀ tx ∈ txs, tx.tx_type = "DEBT" ∨ tx.tx_type = "PAYMENT")
    (hpos : ∀ tx ∈ txs, 0 ≤ tx.amount)
    (hperm : txs.Perm txs2) :
    calculateBalance txs = sumDebtAmounts txs - sumPaymentAmounts txs
    ∧ (∀ cid, txs.filter (fun tx => tx.customer_id = cid) ≠ [] →
        balanceByCustomer txs cid =
          some (sumDebtAmounts (txs.filter (fun tx => tx.customer_id = cid)) -
            sumPaymentAmounts (txs.filter (fun tx => tx.customer_id = cid))))
    ∧ calculateBalance txs = calculateBalance txs2
    ∧ (∀ cid, balanceByCustomer txs cid = balanceByCustomer txs2 cid) := by
  refine ⟨?_, ?_, ?_, ?_⟩
  · rw [calculateBalance_eq_sum]
    exact sum_calcContribution_eq txs hall hpos
  · intro cid hne
    rw [balanceByCustomer_eq, if_neg hne]
    unfold customerTxBalance
    rw [foldl_listTxStep_eq_sum, zero_add]
    rw [sum_listContribution_eq _
      (fun tx hx => hall tx (List.mem_of_mem_filter hx))
      (fun tx hx => hpos tx (List.mem_of_mem_filter hx))]
  · rw [calculateBalance_eq_sum, calculateBalance_eq_sum]
    exact ((hperm.map calcContribution).sum_eq)
  · intro cid
    rw [balanceByCustomer_eq, balanceByCustomer_eq]
    have hflt := hperm.filter (fun tx => tx.customer_id = cid)
    by_cases hn : txs.filter (fun tx => tx.customer_id = cid) = []
    · have hn2 : txs2.filter (fun tx => tx.customer_id = cid) = [] := by
        rw [hn] at hflt
        exact (List.Perm.nil_eq hflt).symm
      rw [if_pos hn, if_pos hn2]
    · have hn2 : ¬ (txs2.filter (fun tx => tx.customer_id = cid) = []) := by
        intro h2
        rw [h2] at hflt
        exact hn (List.Perm.eq_nil hflt)
      rw [if_neg hn, if_neg hn2]
      unfold customerTxBalance
      rw [foldl_listTxStep_eq_sum, foldl_listTxStep_eq_sum]
      rw [(hflt.map listContribution).sum_eq]

/-! ## Claims C3 and C5 -/

theorem upsertUserProfile_self_mem (ps : List UserProfile) (p : UserProfile) :
    p ∈ upsertUserProfile ps p := by
  unfold upsertUserProfile
  split
  · rename_i h
    rw [List.any_eq_true] at h
    obtain ⟨q, hq, hqe⟩ := h
    rw [List.mem_map]
    refine ⟨q, hq, ?_⟩
    simp only [of_decide_eq_true hqe, if_pos]
  · simp

theorem approve_join_request_admin (db : DB) (uid requestId : String)
    (r : JoinRequest)
    (hfind : db.join_requests.find? (fun x => x.id = requestId) = some r)
    (hadmin : isAdminOf uid r.org_id db = true) :
    approve_join_request (some uid) requestId db =
      ({ db with
          join_requests := db.join_requests.map (fun x =>
            if x.id = requestId then { x with status := "APPROVED" } else x),
          user_profiles := upsertUserProfile db.user_profiles
            ⟨r.user_id, r.org_id, r.org_name, (r.role).getD "STAFF",
              (r.username).getD (emailLocalPart r.email)⟩ },
        .ok "Join request approved") := by
  simp [approve_join_request, hfind, hadmin]

/-- C3: a caller who is not an ADMIN-role member of the target organization
receives the "Not authorized" failure from both `approve_join_request` and
`reject_join_request`, and the store is returned unchanged: the join
request's status is untouched and no `user_profiles` row is created or
updated. -/
theorem nonadmin_approve_reject_noop (db : DB) (uid requestId : String)
    (r : JoinRequest)
    (hfind : db.join_requests.find? (fun x => x.id = requestId) = some r)
    (hnotadmin : isAdminOf uid r.org_id db = false) :
    approve_join_request (some uid) requestId db = (db, .fail "Not authorized")
    ∧ reject_join_request (some uid) requestId db
      = (db, .fail "Not authorized") := by
  constructor <;>
    simp [approve_join_request, reject_join_request, hfind, hnotadmin]

/-- Witness for C3: a STAFF caller of the target org attempting approval. -/
theorem nonadmin_approve_reject_noop_witness :
    approve_join_request (some "staff1") "r1" exC3db
        = (exC3db, .fail "Not authorized")
    ∧ reject_join_request (some "staff1") "r1" exC3db
        = (exC3db, .fail "Not authorized") :=
  nonadmin_approve_reject_noop exC3db "staff1" "r1" exC3req rfl rfl

/-- C5 counterexample: on a store whose only join request is REJECTED and
whose caller is an ADMIN of its org, `approve_join_request` succeeds, the
request's status becomes APPROVED, and a `user_profiles` row is created for
the requester — REJECTED is not terminal at the RPC level. -/
theorem approve_after_reject_succeeds :
    (approve_join_request (some "admin1") "r9" exC5db).2
        = .ok "Join request approved"
    ∧ ((approve_join_request (some "admin1") "r9" exC5db).1.join_requests.map
        JoinRequest.status) = ["APPROVED"]
    ∧ (approve_join_request (some "admin1") "r9" exC5db).1.user_profiles
        = [⟨"admin1", "org1", some "Acme", "ADMIN", "boss"⟩,
            ⟨"u9", "org1", some "Acme", "STAFF", "nina"⟩] :=
  ⟨rfl, rfl, rfl⟩

/-- C5 (amended): `approve_join_request` never inspects the request's
current status: an ADMIN caller approving a REJECTED request succeeds, the
status becomes APPROVED and a profile is upserted for the requester.
REJECTED is terminal only in the admin UI flow, whose approval feed
(`getOrgJoinRequests`) lists PENDING requests exclusively. -/
theorem approve_ignores_rejected_status (db : DB) (uid requestId : String)
    (r : JoinRequest)
    (hfind : db.join_requests.find? (fun x => x.id = requestId) = some r)
    (hrej : r.status = "REJECTED")
    (hadmin : isAdminOf uid r.org_id db = true) :
    (approve_join_request (some uid) requestId db).2
        = .ok "Join request approved"
    ∧ (∀ x ∈ (approve_join_request (some uid) requestId db).1.join_requests,
        x.id = requestId → x.status = "APPROVED")
    ∧ (∃ p ∈ (approve_join_request (some uid) requestId db).1.user_profiles,
        p.id = r.user_id ∧ p.org_id = r.org_id)
    ∧ r ∉ getOrgJoinRequests r.org_id db := by
  rw [approve_join_request_admin db uid requestId r hfind hadmin]
  refine ⟨rfl, ?_, ?_, ?_⟩
  · intro x hx hxid
    simp only [List.mem_map] at hx
    obtain ⟨y, hy, hyx⟩ := hx
    by_cases hyid : y.id = requestId
    · rw [if_pos hyid] at hyx
      rw [← hyx]
    · rw [if_neg hyid] at hyx
      rw [← hyx] at hxid
      exact absurd hxid hyid
  · exact ⟨_, upsertUserProfile_self_mem _ _, rfl, rfl⟩
  · intro hmem
    have h2 := (insertionSort_perm _ _).mem_iff.mp hmem
    rw [List.mem_filter] at h2
    have h3 := h2.2
    rw [hrej] at h3
    simp at h3

/-- Witness for the amended C5 on the concrete REJECTED request. -/
theorem approve_ignores_rejected_status_witness :
    (approve_join_request (some "admin1") "r9" exC5db).2
        = .ok "Join request approved"
    ∧ exC5req ∉ getOrgJoinRequests "org1" exC5db := by
  have h := approve_ignores_rejected_status exC5db "admin1" "r9" exC5req
    rfl rfl rfl
  exact ⟨h.1, h.2.2.2⟩

/-! ## Claims C6 and C7 -/

theorem mem_listSelected {db : DB} {orgId search : String} {c : Customer}
    (hc : c ∈ db.customers) (horg : c.org_id = orgId)
    (hsearch : matchesSearch search c = true) :
    c ∈ listSelected orgId search db := by
  unfold listSelected
  rw [(insertionSort_perm _ _).mem_iff, List.mem_filter]
  exact ⟨hc, by simp [horg, hsearch]⟩

theorem hydrateCustomer_of_has_tx {txs : List Transaction} {c : Customer}
    (h : txs.filter (fun tx => tx.customer_id = c.id) ≠ []) :
    hydrateCustomer txs c =
      { c with balance := some (customerTxBalance c.id txs) } := by
  unfold hydrateCustomer
  rw [balanceByCustomer_eq, if_neg h]
  rfl

theorem hydrateCustomer_of_no_tx {txs : List Transaction} {c : Customer}
    (h : txs.filter (fun tx => tx.customer_id = c.id) = []) :
    hydrateCustomer txs c = { c with balance := some (c.balance.getD 0) } := by
  unfold hydrateCustomer
  rw [balanceByCustomer_eq, if_pos h]
  rfl

theorem listCustomers_else (orgId search : String) (db : DB)
    (hne : ¬ ((listSelected orgId search db).map Customer.id = [])) :
    listCustomers orgId search db =
      ((if ((((listSelected orgId search db).map
              (hydrateCustomer (fetchedTxs orgId search db))).filter
            (fun c => qAbs (c.balance.getD 0) < settleEpsilon)).map
              Customer.id) = [] then db
        else { db with customers := db.customers.filter (fun c =>
          !((((((listSelected orgId search db).map
              (hydrateCustomer (fetchedTxs orgId search db))).filter
            (fun c => qAbs (c.balance.getD 0) < settleEpsilon)).map
              Customer.id)).contains c.id)) }),
      ((listSelected orgId search db).map
          (hydrateCustomer (fetchedTxs orgId search db))).filter
        (fun c => settleEpsilon ≤ qAbs (c.balance.getD 0))) := by
  unfold listCustomers
  rw [if_neg hne]

/-- C6 counterexample: a customer row with cached balance 42 and zero
fetched transactions. `listCustomers` returns it with balance 42 taken from
the cached column (the recomputed balance over its transactions is 0), and
the post-state store is completely unchanged — in particular the cached
column is never overwritten. -/
theorem listCustomers_cached_counterexample :
    (listCustomers "org1" "" exC6db).2 = [{ exC6cust with balance := some 42 }]
    ∧ customerTxBalance "c1" exC6db.transactions = 0
    ∧ (listCustomers "org1" "" exC6db).1 = exC6db := by
  have h1 : ¬ (qAbs (42 : ℚ) < settleEpsilon) := by
    norm_num [qAbs, settleEpsilon]
  have h2 : settleEpsilon ≤ qAbs (42 : ℚ) := by
    norm_num [qAbs, settleEpsilon]
  refine ⟨?_, rfl, ?_⟩
  · simp [listCustomers, listSelected, fetchedTxs, hydrateCustomer,
      insertionSort, insertSorted, matchesSearch, balanceByCustomer,
      exC6db, exC6cust, h1, h2]
  · simp [listCustomers, listSelected, fetchedTxs, hydrateCustomer,
      insertionSort, insertSorted, matchesSearch, balanceByCustomer,
      exC6db, exC6cust, h1, h2]

/-- C6 (amended): `listCustomers` hydrates a customer's balance from the
fetched transactions only when at least one belongs to it; a customer with
zero fetched transactions keeps its cached `balance` column (defaulting to
0 when null). The cached column is never written back: every customer row
in the post-state store is an unmodified row of the pre-state. -/
theorem listCustomers_hydration_no_writeback (orgId search : String)
    (db : DB) (txs : List Transaction) (c : Customer) :
    (txs.filter (fun tx => tx.customer_id = c.id) ≠ [] →
      hydrateCustomer txs c =
        { c with balance := some (customerTxBalance c.id txs) })
    ∧ (txs.filter (fun tx => tx.customer_id = c.id) = [] →
      hydrateCustomer txs c = { c with balance := some (c.balance.getD 0) })
    ∧ (∀ x ∈ (listCustomers orgId search db).1.customers,
        x ∈ db.customers) := by
  refine ⟨fun h => hydrateCustomer_of_has_tx h,
    fun h => hydrateCustomer_of_no_tx h, ?_⟩
  intro x hx
  unfold listCustomers at hx
  by_cases hids : ((listSelected orgId search db).map Customer.id) = []
  · rw [if_pos hids] at hx
    exact hx
  · rw [if_neg hids] at hx
    simp only at hx
    split at hx
    · exact hx
    · exact (List.mem_filter.mp hx).1

/-- Witness for the amended C6: the cached-42 customer keeps its cached
balance and its row survives untouched. -/
theorem listCustomers_hydration_no_writeback_witness :
    hydrateCustomer (fetchedTxs "org1" "" exC6db) exC6cust =
      { exC6cust with balance := some (exC6cust.balance.getD 0) } :=
  (listCustomers_hydration_no_writeback "org1" "" exC6db
    (fetchedTxs "org1" "" exC6db) exC6cust).2.1 rfl

/-- C7: any selected customer with at least one fetched transaction whose
recomputed balance is within `1e-6` of zero is pruned by `listCustomers`:
no row with its id is returned, no row with its id survives in the
customers table, and its transactions are untouched — `getHistory` returns
exactly what it returned before the listing. -/
theorem listCustomers_prunes_settled (orgId search : String) (db : DB)
    (c : Customer) (hc : c ∈ db.customers) (horg : c.org_id = orgId)
    (hsearch : matchesSearch search c = true)
    (htx : (fetchedTxs orgId search db).filter
      (fun tx => tx.customer_id = c.id) ≠ [])
    (hsmall : qAbs (customerTxBalance c.id (fetchedTxs orgId search db))
      < settleEpsilon) :
    (∀ d ∈ (listCustomers orgId search db).2, d.id ≠ c.id)
    ∧ (∀ d ∈ (listCustomers orgId search db).1.customers, d.id ≠ c.id)
    ∧ (listCustomers orgId search db).1.transactions = db.transactions
    ∧ getHistory orgId c.id (listCustomers orgId search db).1
        = getHistory orgId c.id db := by
  have hsel : c ∈ listSelected orgId search db := mem_listSelected hc horg hsearch
  have hids : ¬ ((listSelected orgId search db).map Customer.id = []) := by
    intro h
    rw [List.map_eq_nil_iff] at h
    rw [h] at hsel
    exact List.not_mem_nil _ hsel
  rw [listCustomers_else orgId search db hids]
  set txs := fetchedTxs orgId search db with htxs
  -- the hydrated row of any selected customer sharing c's id is settled
  have hbal : ∀ d ∈ listSelected orgId search db, d.id = c.id →
      hydrateCustomer txs d =
        { d with balance := some (customerTxBalance c.id txs) } := by
    intro d _ hid
    have : txs.filter (fun tx => tx.customer_id = d.id) ≠ [] := by
      rw [hid]
      exact htx
    rw [hydrateCustomer_of_has_tx this, hid]
  -- c.id is among the pruned ids
  have hzero : c.id ∈ (((listSelected orgId search db).map
      (hydrateCustomer txs)).filter
        (fun d => qAbs (d.balance.getD 0) < settleEpsilon)).map Customer.id := by
    rw [List.mem_map]
    refine ⟨hydrateCustomer txs c, ?_, ?_⟩
    · rw [List.mem_filter]
      refine ⟨List.mem_map_of_mem _ hsel, ?_⟩
      rw [hbal c hsel rfl]
      simpa using hsmall
    · rw [hbal c hsel rfl]
  have hzne : ¬ ((((listSelected orgId search db).map
      (hydrateCustomer txs)).filter
        (fun d => qAbs (d.balance.getD 0) < settleEpsilon)).map Customer.id
          = []) := by
    intro h
    rw [h] at hzero
    exact List.not_mem_nil _ hzero
  rw [if_neg hzne]
  refine ⟨?_, ?_, rfl, rfl⟩
  · intro d hd hdc
    rw [List.mem_filter] at hd
    obtain ⟨hdm, hdq⟩ := hd
    rw [List.mem_map] at hdm
    obtain ⟨e, he, hed⟩ := hdm
    have heid : e.id = c.id := by
      rw [← hdc, ← hed]
      rfl
    rw [hbal e he heid] at hed
    rw [← hed] at hdq
    simp only [Option.getD_some] at hdq
    rw [decide_eq_true_eq] at hdq
    exact absurd hsmall (not_lt.mpr hdq)
  · intro d hd hdc
    rw [List.mem_filter] at hd
    have h2 := hd.2
    have h4 : (((((listSelected orgId search db).map
        (hydrateCustomer txs)).filter
          (fun e => qAbs (e.balance.getD 0) < settleEpsilon)).map
            Customer.id)).contains d.id = true := by
      rw [hdc]
      exact List.elem_iff.mpr hzero
    rw [h4] at h2
    simp at h2

/-- Witness for C7: DEBT 100 then PAYMENT 100 on a fresh customer — the
post-recomputation listing omits the customer, but `getHistory` still
returns both transactions. -/
theorem listCustomers_prunes_settled_witness :
    (∀ d ∈ (listCustomers "org1" "" exC7db).2, d.id ≠ "c2")
    ∧ getHistory "org1" "c2" (listCustomers "org1" "" exC7db).1
        = getHistory "org1" "c2" exC7db
    ∧ exC7tx1 ∈ getHistory "org1" "c2" exC7db
    ∧ exC7tx2 ∈ getHistory "org1" "c2" exC7db := by
  have h := listCustomers_prunes_settled "org1" "" exC7db exC7cust
    (by decide) rfl rfl (by decide)
    (by
      have hpd : ¬ (("PAYMENT" : String) = "DEBT") := by decide
      norm_num [customerTxBalance, fetchedTxs, listSelected, insertionSort,
        insertSorted, matchesSearch, exC7db, exC7cust, exC7tx1, exC7tx2,
        listTxStep, qAbs, settleEpsilon, hpd])
  exact ⟨h.1, h.2.2.2, by decide, by decide⟩

/-! ## Claim C8 -/

/-- C8 counterexample: a transaction with the unknown tag "VOID" and amount
5. `calculateBalance` silently ignores it — the balance equals that of the
empty history — while the `listCustomers` fold folds it in with the payment
default, subtracting its amount. Neither computation signals an error. -/
theorem unknown_tag_not_error_counterexample :
    calculateBalance [exC8tx] = calculateBalance []
    ∧ balanceByCustomer [exC8tx] "c1" = some (-5) := by
  constructor
  · rfl
  · have h1 : ¬ (("VOID" : String) = "DEBT") := by decide
    norm_num [balanceByCustomer, listTxStep, qAbs, exC8tx, h1]

/-- C8 (amended): the balance computations never signal an error on a tag
that is neither DEBT nor PAYMENT: `calculateBalance` skips such a
transaction — appending it leaves the balance unchanged and its
contribution is 0 — while the `listCustomers` fold treats it like a
PAYMENT, subtracting `Math.abs(amount)`. -/
theorem unknown_tag_ignored_or_subtracted (txs : List Transaction)
    (tx : Transaction) (hd : tx.tx_type ≠ "DEBT")
    (hp : tx.tx_type ≠ "PAYMENT") :
    calculateBalance (txs ++ [tx]) = calculateBalance txs
    ∧ (∀ q : ℚ, listTxStep q tx = q - qAbs tx.amount)
    ∧ calcContribution tx = 0 := by
  refine ⟨?_, ?_, ?_⟩
  · unfold calculateBalance
    rw [List.foldl_append]
    simp [calcStep, hd, hp]
  · intro q
    simp [listTxStep, hd]
  · simp [calcContribution, hd, hp]

/-- Witness for the amended C8 at the concrete VOID transaction. -/
theorem unknown_tag_ignored_or_subtracted_witness :
    calculateBalance ([] ++ [exC8tx]) = calculateBalance [] :=
  (unknown_tag_ignored_or_subtracted [] exC8tx (by decide) (by decide)).1

/-! ## Claim C2 -/

/-- C2 (spec-modelled `apply_payment`): a payment is validated against the
balance recomputed from the transaction log in the same atomic step as its
insert, with no client-supplied balance argument: when the amount exceeds
the recomputed balance the call fails and the store is unchanged (no
transaction inserted); otherwise exactly the one PAYMENT row is appended. -/
theorem payment_checked_against_recomputed_balance (orgId customerId : String)
    (amount : ℚ) (userId userName freshId : String) (now : Nat) (db : DB)
    (hpos : 0 < amount) :
    (recomputedBalance orgId customerId db < amount →
      recordPayment orgId customerId amount userId userName freshId now db
        = (db, none))
    ∧ (amount ≤ recomputedBalance orgId customerId db →
      recordPayment orgId customerId amount userId userName freshId now db
        = ({ db with transactions := db.transactions ++
              [⟨freshId, orgId, customerId, userId, userName, "PAYMENT",
                amount, now⟩] },
            some ⟨freshId, orgId, customerId, userId, userName, "PAYMENT",
              amount, now⟩)) := by
  constructor
  · intro h
    unfold recordPayment apply_payment
    rw [if_neg (not_not_intro hpos), if_neg (not_le.mpr h)]
  · intro h
    unfold recordPayment apply_payment
    rw [if_neg (not_not_intro hpos), if_pos h]

/-- Witness for C2: with a single DEBT of 100 on the log, a payment of 150
fails and inserts nothing. -/
theorem payment_checked_against_recomputed_balance_witness :
    recordPayment "org1" "c1" 150 "u1" "U" "t2" 1 exC2db = (exC2db, none) :=
  (payment_checked_against_recomputed_balance "org1" "c1" 150 "u1" "U" "t2" 1
    exC2db (by decide)).1
    (by norm_num [recomputedBalance, calculateBalance, calcStep, exC2db])

/-! ## Claim C9 -/

/-- C9: organization deletion is gated on the ADMIN role (the delete action
is only reachable from an ADMIN profile); a failed fresh password
re-verification stops the flow after the verification call with nothing
deleted; and a successful one performs exactly, in order: password
verification, deletion of the org's transactions, then its customers, then
its user profiles, then sign-out — children before parents. -/
theorem delete_org_stepup_and_order (profile : UserProfile)
    (emailFound passwordOk : Bool) (db : DB) :
    (profile.role ≠ "ADMIN" →
      profileScreenDeleteOrg profile emailFound passwordOk db
        = ⟨db, [], none⟩)
    ∧ (profile.role = "ADMIN" → emailFound = true → passwordOk = false →
      profileScreenDeleteOrg profile emailFound passwordOk db
        = ⟨db, [.verifyPassword], some "Password is incorrect"⟩)
    ∧ (profile.role = "ADMIN" → emailFound = true → passwordOk = true →
      profileScreenDeleteOrg profile emailFound passwordOk db
        = ⟨⟨db.customers.filter (fun c => !(c.org_id = profile.org_id)),
            db.transactions.filter (fun t => !(t.org_id = profile.org_id)),
            db.join_requests,
            db.user_profiles.filter (fun p => !(p.org_id = profile.org_id))⟩,
          [.verifyPassword, .deleteTransactions, .deleteCustomers,
            .deleteProfiles, .signOut], none⟩) := by
  refine ⟨?_, ?_, ?_⟩
  · intro h
    simp [profileScreenDeleteOrg, h]
  · intro h he hp
    subst he
    subst hp
    simp [profileScreenDeleteOrg, handleDeleteOrg, h]
  · intro h he hp
    subst he
    subst hp
    simp [profileScreenDeleteOrg, handleDeleteOrg, h]

/-- Witness for C9: the admin of org1 deletes it with a correct password;
only org2's rows survive, and a STAFF profile cannot start the flow. -/
theorem delete_org_stepup_and_order_witness :
    profileScreenDeleteOrg exC9admin true true exC9db
      = ⟨⟨[⟨"c9", "org2", "Bob", "+2", none, some 3⟩],
          [⟨"t9", "org2", "c9", "u2", "V", "DEBT", 3, 0⟩], [], [exC9staff]⟩,
        [.verifyPassword, .deleteTransactions, .deleteCustomers,
          .deleteProfiles, .signOut], none⟩
    ∧ profileScreenDeleteOrg exC9staff true true exC9db
      = ⟨exC9db, [], none⟩ := by
  constructor
  · have h := (delete_org_stepup_and_order exC9admin true true exC9db).2.2
      rfl rfl rfl
    rw [h]
    rfl
  · exact (delete_org_stepup_and_order exC9staff true true exC9db).1
      (by decide)

/-! ## Claim C4 -/

/-- C4: for an authenticated join-path identity (metadata carrying
`join_org_id`) with no `user_profiles` row and an existing join request,
`getProfile` returns ACTIVE and materializes a profile exactly when the
request's status is APPROVED; for every other status it returns REJECTED or
PENDING accordingly and leaves the store — in particular `user_profiles` —
completely unchanged. -/
theorem getProfile_join_path_gating (freshId : String) (now : Nat)
    (user : AuthUser) (db : DB) (o : String) (r : JoinRequest)
    (hjoin : user.meta_join_org_id = some o)
    (hnoprof : db.user_profiles.find? (fun p => p.id = user.id) = none)
    (hreq : getUserJoinRequest user.id o db = some r) :
    (r.status = "APPROVED" →
      (getProfile freshId now (some user) db).2.2 =
        .profile ⟨user.id, o, user.meta_join_org_name.getD o,
          user.meta_role.getD "STAFF", metaUsernameOf user, some "ACTIVE"⟩
      ∧ ∃ p ∈ (getProfile freshId now (some user) db).1.user_profiles,
          p.id = user.id ∧ p.org_id = o)
    ∧ (r.status ≠ "APPROVED" →
      (getProfile freshId now (some user) db).1 = db
      ∧ (getProfile freshId now (some user) db).2.2 =
          .profile ⟨user.id, o, user.meta_join_org_name.getD o,
            user.meta_role.getD "STAFF", metaUsernameOf user,
            some (if r.status = "REJECTED" then "REJECTED" else "PENDING")⟩) := by
  constructor
  · intro happ
    constructor
    · simp [getProfile, hnoprof, hjoin, hreq, happ]
    · have hgp : (getProfile freshId now (some user) db).1.user_profiles =
          upsertUserProfile db.user_profiles
            ⟨user.id, o, some (user.meta_join_org_name.getD o),
              user.meta_role.getD "STAFF", metaUsernameOf user⟩ := by
        simp [getProfile, hnoprof, hjoin, hreq, happ]
      rw [hgp]
      exact ⟨_, upsertUserProfile_self_mem _ _, rfl, rfl⟩
  · intro hne
    by_cases hrej : r.status = "REJECTED"
    · constructor <;> simp [getProfile, hnoprof, hjoin, hreq, hne, hrej]
    · constructor <;> simp [getProfile, hnoprof, hjoin, hreq, hne, hrej]

/-- Witness for C4: a PENDING join request resolves to PENDING and creates
no profile row. -/
theorem getProfile_join_path_gating_witness :
    (getProfile "f1" 7 (some exC4user) exC4db).1 = exC4db
    ∧ (getProfile "f1" 7 (some exC4user) exC4db).2.2 =
        .profile ⟨"u4", "org1", "Acme", "STAFF", "nina", some "PENDING"⟩ := by
  have h := (getProfile_join_path_gating "f1" 7 exC4user exC4db "org1" exC4req
    rfl rfl rfl).2 (by decide)
  refine ⟨h.1, ?_⟩
  rw [h.2]
  rfl

/-! ## Claim C10 -/

/-- C10: `createJoinRequest` upserts on the `(user_id, org_id)` conflict key
and unconditionally writes status PENDING: when a request with that key
already exists — in any status, including APPROVED or REJECTED — the call
succeeds, keeps the table's length (no duplicate row), overwrites every
key-matching row with the freshly supplied email, username, org name and
role and status PENDING, leaves all other rows untouched, and returns a
PENDING row. -/
theorem createJoinRequest_resets_to_pending (db : DB)
    (userId email : String) (username : Option String) (orgId : String)
    (orgName : Option String) (role : Option String) (freshId : String)
    (now : Nat) (r0 : JoinRequest) (h0 : r0 ∈ db.join_requests)
    (hu : r0.user_id = userId) (ho : r0.org_id = orgId) :
    ((createJoinRequest userId email username orgId orgName role freshId now
        db).1.join_requests.length = db.join_requests.length)
    ∧ (∀ x ∈ (createJoinRequest userId email username orgId orgName role
          freshId now db).1.join_requests,
        x.user_id = userId → x.org_id = orgId →
          x.status = "PENDING" ∧ x.email = email ∧ x.username = username
            ∧ x.org_name = orgName ∧ x.role = some (role.getD "STAFF"))
    ∧ (∀ x ∈ (createJoinRequest userId email username orgId orgName role
          freshId now db).1.join_requests,
        ¬ (x.user_id = userId ∧ x.org_id = orgId) → x ∈ db.join_requests)
    ∧ (createJoinRequest userId email username orgId orgName role freshId now
        db).2.status = "PENDING" := by
  have hsome : (db.join_requests.find?
      (fun r => r.user_id = userId && r.org_id = orgId)).isSome := by
    rw [List.find?_isSome]
    exact ⟨r0, h0, by simp [hu, ho]⟩
  obtain ⟨rf, hrf⟩ := Option.isSome_iff_exists.mp hsome
  unfold createJoinRequest
  rw [hrf]
  refine ⟨by simp, ?_, ?_, rfl⟩
  · intro x hx hxu hxo
    simp only [List.mem_map] at hx
    obtain ⟨y, hy, hyx⟩ := hx
    by_cases hkey : (y.user_id = userId && y.org_id = orgId) = true
    · rw [if_pos hkey] at hyx
      rw [← hyx]
      exact ⟨rfl, rfl, rfl, rfl, rfl⟩
    · rw [if_neg hkey] at hyx
      rw [← hyx] at hxu hxo
      exact absurd (by simp [hxu, hxo]) hkey
  · intro x hx hnkey
    simp only [List.mem_map] at hx
    obtain ⟨y, hy, hyx⟩ := hx
    by_cases hkey : (y.user_id = userId && y.org_id = orgId) = true
    · rw [if_pos hkey] at hyx
      have : x.user_id = userId ∧ x.org_id = orgId := by
        rw [← hyx]
        simp only [joinRequestUpdate]
        simp only [Bool.and_eq_true, decide_eq_true_eq] at hkey
        exact hkey
      exact absurd this hnkey
    · rw [if_neg hkey] at hyx
      rw [← hyx]
      exact hy

/-- Witness for C10: resubmitting over an APPROVED request flips it back to
PENDING with the new fields, without duplicating the row. -/
theorem createJoinRequest_resets_to_pending_witness :
    ((createJoinRequest "u10" "new@mail.com" (some "newname") "org1"
        (some "Acme") (some "STAFF") "rX" 5 exC10db).1.join_requests.length
      = exC10db.join_requests.length)
    ∧ (createJoinRequest "u10" "new@mail.com" (some "newname") "org1"
        (some "Acme") (some "STAFF") "rX" 5 exC10db).2.status = "PENDING" := by
  have h := createJoinRequest_resets_to_pending exC10db "u10" "new@mail.com"
    (some "newname") "org1" (some "Acme") (some "STAFF") "rX" 5 exC10req
    (by decide) rfl rfl
  exact ⟨h.1, h.2.2.2⟩

/-- Witness for C1 at the concrete history DEBT 100 then PAYMENT 40 and its
reversal. -/
theorem recomputed_balance_signed_sum_witness :
    calculateBalance
        [⟨"t1", "org1", "c1", "u1", "U", "DEBT", 100, 0⟩,
          ⟨"t2", "org1", "c1", "u1", "U", "PAYMENT", 40, 1⟩] =
      sumDebtAmounts
          [⟨"t1", "org1", "c1", "u1", "U", "DEBT", 100, 0⟩,
            ⟨"t2", "org1", "c1", "u1", "U", "PAYMENT", 40, 1⟩] -
        sumPaymentAmounts
          [⟨"t1", "org1", "c1", "u1", "U", "DEBT", 100, 0⟩,
            ⟨"t2", "org1", "c1", "u1", "U", "PAYMENT", 40, 1⟩] ∧
    calculateBalance
        [⟨"t1", "org1", "c1", "u1", "U", "DEBT", 100, 0⟩,
          ⟨"t2", "org1", "c1", "u1", "U", "PAYMENT", 40, 1⟩] =
      calculateBalance
        [⟨"t2", "org1", "c1", "u1", "U", "PAYMENT", 40, 1⟩,
          ⟨"t1", "org1", "c1", "u1", "U", "DEBT", 100, 0⟩] := by
  have h := recomputed_balance_signed_sum
    [⟨"t1", "org1", "c1", "u1", "U", "DEBT", 100, 0⟩,
      ⟨"t2", "org1", "c1", "u1", "U", "PAYMENT", 40, 1⟩]
    [⟨"t2", "org1", "c1", "u1", "U", "PAYMENT", 40, 1⟩,
      ⟨"t1", "org1", "c1", "u1", "U", "DEBT", 100, 0⟩]
    (by decide) (by decide) (List.Perm.swap _ _ _)
  exact ⟨h.1, h.2.2.1⟩

end Ledgerly
